import Mathlib

/-!
Verification of the `ps2anim` demo (`src/App.tsx`).

The repository is a single-file React/three.js visualization.  The
numeric and state-machine content of the file is embedded shallowly:

* the GLSL helper functions (`clamp`, `smoothstep`, `mix`) and the
  fragment-shader palette `customPalette` are modelled as functions over an
  arbitrary linearly ordered field (instantiated at `ℚ` for executable
  claims and at `ℝ` inside the full fragment-shader model);
* the `Tower` per-frame scale update, the cube-stack construction, the
  grid composition, the hover handlers and the fullscreen toggle are
  modelled as pure functions / explicit state transitions;
* calls to `Math.random()` are modelled by passing the drawn samples as
  explicit arguments.

Definitions come first, then the theorems about them.
-/

namespace PS2

/-- Vector of three scalars, modelling a GLSL `vec3` (and RGB colors). -/
abbrev V3 (α : Type) := α × α × α

variable {α : Type} [LinearOrderedField α]

/-- GLSL built-in `clamp(x, lo, hi) = min(max(x, lo), hi)`. -/
def clamp (x lo hi : α) : α := min (max x lo) hi

/-- GLSL built-in `smoothstep(e0, e1, x)`: Hermite interpolation
`t*t*(3 - 2*t)` of the clamped normalized parameter. -/
def smoothstep (e0 e1 x : α) : α :=
  let t := clamp ((x - e0) / (e1 - e0)) 0 1
  t * t * (3 - 2 * t)

/-- GLSL built-in `mix(a, b, s) = a*(1-s) + b*s` (linear blend). -/
def mix (a b s : α) : α := a * (1 - s) + b * s

/-- Componentwise `mix` on `vec3`. -/
def mix3 (a b : V3 α) (s : α) : V3 α :=
  (mix a.1 b.1 s, mix a.2.1 b.2.1 s, mix a.2.2 b.2.2 s)

/-- Componentwise addition on `vec3`. -/
def add3 (a b : V3 α) : V3 α := (a.1 + b.1, a.2.1 + b.2.1, a.2.2 + b.2.2)

/-- Componentwise subtraction on `vec3`. -/
def sub3 (a b : V3 α) : V3 α := (a.1 - b.1, a.2.1 - b.2.1, a.2.2 - b.2.2)

/-- Scalar multiplication on `vec3`. -/
def smul3 (s : α) (a : V3 α) : V3 α := (s * a.1, s * a.2.1, s * a.2.2)

/-- GLSL `dot` on `vec3`. -/
def dot3 (a b : V3 α) : α := a.1 * b.1 + a.2.1 * b.2.1 + a.2.2 * b.2.2

/-- GLSL `length` on `vec3`. -/
noncomputable def length3 (a : V3 ℝ) : ℝ := Real.sqrt (dot3 a a)

/-- GLSL `normalize` on `vec3`. -/
noncomputable def normalize3 (a : V3 ℝ) : V3 ℝ := smul3 (1 / length3 a) a

/-- GLSL `mod(x, y) = x - y * floor(x/y)`. -/
noncomputable def glslMod (x y : ℝ) : ℝ := x - y * (Int.floor (x / y) : ℝ)

/-- Palette anchor color `c0 = vec3(0.35, 0.0, 0.0)` (App.tsx line 63). -/
def c0 : V3 α := (0.35, 0, 0)

/-- Palette anchor color `c1 = vec3(0.5, 0.0, 0.1)` (App.tsx line 64). -/
def c1 : V3 α := (0.5, 0, 0.1)

/-- Palette anchor color `c2 = vec3(0.7, 0.1, 0.2)` (App.tsx line 65). -/
def c2 : V3 α := (0.7, 0.1, 0.2)

/-- Palette anchor color `c3 = vec3(0.9, 0.2, 0.1)` (App.tsx line 66). -/
def c3 : V3 α := (0.9, 0.2, 0.1)

/-- Palette anchor color `c4 = vec3(1.0, 0.4, 0.1)` (App.tsx line 67). -/
def c4 : V3 α := (1.0, 0.4, 0.1)

/-- Palette anchor color `c5 = vec3(1.0, 0.6, 0.2)` (App.tsx line 68). -/
def c5 : V3 α := (1.0, 0.6, 0.2)

/-- Shader function `customPalette` (App.tsx lines 62–83): five smoothstep
band weights `t0 … t4`, then the sequential reassignments
`color = mix(c0,c1,t0); color = mix(color,c2,t1); …` written as a nested
expression. -/
def customPalette (t : α) : V3 α :=
  let t0 := smoothstep 0 0.2 t
  let t1 := smoothstep 0.2 0.4 t
  let t2 := smoothstep 0.4 0.6 t
  let t3 := smoothstep 0.6 0.8 t
  let t4 := smoothstep 0.8 1.0 t
  mix3 (mix3 (mix3 (mix3 (mix3 c0 c1 t0) c2 t1) c3 t2) c4 t3) c5 t4

/-- Shader helper `fogFactor(dist, density)` (App.tsx lines 86–89):
`clamp(1 - exp(-dist * density), 0, 1)`. -/
noncomputable def fogFactor (dist density : ℝ) : ℝ :=
  clamp (1 - Real.exp (-dist * density)) 0 1

/-- Inputs of the fragment shader `main` (App.tsx lines 91–131): the
varyings, the built-in `cameraPosition`, and the uniforms it reads. -/
structure FragIn where
  cameraPosition : V3 ℝ
  vWorldPosition : V3 ℝ
  vNormal : V3 ℝ
  vPosition : V3 ℝ
  time : ℝ
  index : ℝ
  randomValue : ℝ
  isHovered : ℝ

/-- Fragment shader `main` (App.tsx lines 91–131), translated statement by
statement; the result is the `gl_FragColor` RGBA quadruple. -/
noncomputable def fragmentMain (u : FragIn) : V3 ℝ × ℝ :=
  let viewDirection := normalize3 (sub3 u.cameraPosition u.vWorldPosition)
  let fresnel := (1 - dot3 viewDirection u.vNormal) ^ 2
  let t := glslMod (u.randomValue + u.time * 0.1) 1
  let baseColor := customPalette t
  let rim := (1 - dot3 viewDirection u.vNormal) ^ 3 * 0.5
  let finalColor := add3 baseColor (smul3 rim (0.3, 0.1, 0.1))
  let finalColor := smul3 (0.8 + 0.2 * Real.sin (u.time * 2 + u.index * 0.5))
    finalColor
  let finalColor :=
    if 0 < u.isHovered then
      let fogDensity := 2 + Real.sin (u.time * 3) * 0.5
      let dist := length3 u.vPosition
      let fog := fogFactor dist fogDensity
      let fogColor : V3 ℝ := (1.0, 0.3, 0.1)
      let glowColor := mix3 finalColor fogColor
        (fog * u.isHovered * (0.8 + 0.2 * Real.sin (u.time * 4)))
      let emission := 0.4 + 0.2 * Real.sin (u.time * 5)
      let finalColor := mix3 finalColor glowColor u.isHovered
      let finalColor := add3 finalColor (smul3 (emission * u.isHovered) fogColor)
      let edgeGlow := (1 - dot3 viewDirection u.vNormal) ^ 4
      add3 finalColor (smul3 (edgeGlow * u.isHovered) fogColor)
    else finalColor
  (finalColor, 1)

/-- Tower per-frame scale update (App.tsx lines 229–246, the `useFrame`
callback): given the time elapsed since mount (seconds), the tower's
`delay` and the `visible` flag, returns the value written to
`groupRef.current.scale.y`.  The source computes
`elapsedTime = (Date.now() - startTime)/1000 - delay`, returns `0` when
`elapsedTime < 0 || !visible`, returns `1` when `elapsedTime > 1.5`, and
otherwise `1 - (1 - min(elapsedTime/1.5, 1))^4`. -/
def towerScaleY (elapsedSinceMount delay : ℚ) (visible : Bool) : ℚ :=
  let elapsedTime := elapsedSinceMount - delay
  if elapsedTime < 0 ∨ visible = false then 0
  else if 1.5 < elapsedTime then 1
  else 1 - (1 - min (elapsedTime / 1.5) 1) ^ 4

/-- Descriptor of one `Cube` element as created by `Tower` (App.tsx lines
202–215): position, base color (`0x006FEE`), index and the per-cube
Gaussian phase sample. -/
structure CubeDesc where
  position : V3 ℚ
  color : ℕ
  index : ℕ
  randomValue : ℚ
  deriving DecidableEq

/-- Source constant `const numCubes = Math.floor(height * 8)` (App.tsx
line 200). -/
def numCubes (height : ℚ) : ℤ := Int.floor (height * 8)

/-- The cube stack built by `Tower`'s `useEffect` loop
`for (let i = 0; i < numCubes; i++)` (App.tsx lines 202–215): cube `i` sits
at `[position[0], position[1] + i*0.5, position[2]]` with color `0x006FEE`
and an explicit phase sample `phase i` standing for `gaussianRandom(0.5,
0.2)`.  A JavaScript `for` loop with a negative bound runs zero times,
hence the `Int.toNat`. -/
def towerCubes (position : V3 ℚ) (height : ℚ) (phase : ℕ → ℚ) : List CubeDesc :=
  (List.range (numCubes height).toNat).map fun (i : ℕ) =>
    ⟨(position.1, position.2.1 + (i : ℚ) * 0.5, position.2.2), 0x006FEE, i, phase i⟩

/-- Pointer events a `Cube` mesh receives. -/
inductive PointerEvt where
  | over : PointerEvt
  | out : PointerEvt
  deriving DecidableEq

/-- Hover-relevant state of a `Cube`: its `hovered` React state and the
shared `document.body.style.cursor` value. -/
structure HoverState where
  hovered : Bool
  cursor : String
  deriving DecidableEq

/-- Source `handlePointerOver` (App.tsx lines 165–169): sets
`hovered = true` and the cursor to `"pointer"` (the `stopPropagation` call
has no effect on this state). -/
def handlePointerOver (_s : HoverState) : HoverState := ⟨true, "pointer"⟩

/-- Source `handlePointerOut` (App.tsx lines 171–174): sets
`hovered = false` and the cursor back to `"auto"`. -/
def handlePointerOut (_s : HoverState) : HoverState := ⟨false, "auto"⟩

/-- Dispatch of one pointer event to the corresponding handler. -/
def pointerStep (s : HoverState) : PointerEvt → HoverState
  | PointerEvt.over => handlePointerOver s
  | PointerEvt.out => handlePointerOut s

/-- Folding a sequence of pointer events over the hover state. -/
def runPointerEvents (s : HoverState) (evts : List PointerEvt) : HoverState :=
  evts.foldl pointerStep s

/-- Fullscreen-relevant state of `App`: whether the platform is in
fullscreen (`document.fullscreenElement` non-null) and the locally tracked
React state `isFullscreen`. -/
structure AppState where
  fullscreenElement : Bool
  isFullscreen : Bool
  deriving DecidableEq

/-- Source `toggleFullscreen` (App.tsx lines 346–354), with the async
platform calls modelled as succeeding: when not fullscreen it requests
fullscreen and records `isFullscreen = true`; otherwise it exits and
records `false`. -/
def toggleFullscreen (s : AppState) : AppState :=
  if s.fullscreenElement = false then ⟨true, true⟩ else ⟨false, false⟩

/-- Source `handleKeyPress` (App.tsx lines 357–361): the toggle runs
exactly on key `"f"` or `"F"`. -/
def handleKeyPress (key : String) (s : AppState) : AppState :=
  if key = "f" ∨ key = "F" then toggleFullscreen s else s

/-- Grid edge length `const size = 12` (App.tsx line 254). -/
def size : ℕ := 12

/-- Grid spacing `const spacing = 0.8` (App.tsx line 255). -/
noncomputable def spacing : ℝ := 0.8

/-- Descriptor of one `Tower` as composed by `Towers` (App.tsx lines
283–291): the props passed to the `Tower` component. -/
structure TowerDesc where
  position : V3 ℝ
  delay : ℝ
  height : ℝ
  randomValue : ℝ

/-- The tower grid built by `Towers` (App.tsx lines 263–293): the nested
`for x / for z` loops; `posX/posZ = (coord - size/2 + 0.5) * spacing`,
`delay = (x+z) * 0.08`, `height = max(0.5, 2.5 - 1.5 * normalizedDistance
+ gaussianRandom(0, 0.3))` with `normalizedDistance = dist-from-center /
(sqrt 2 * size / 2)`, base y `-2`.  The Gaussian draws
`gaussianRandom(0, 0.3)` and `gaussianRandom(0.5, 0.2)` are passed as the
explicit sample functions `heightNoise` and `randomNoise`. -/
noncomputable def towers (heightNoise randomNoise : ℕ → ℕ → ℝ) :
    List TowerDesc :=
  (List.range size).flatMap fun (x : ℕ) =>
    (List.range size).map fun (z : ℕ) =>
      ⟨(((x : ℝ) - (size : ℝ) / 2 + 0.5) * spacing, -2,
          ((z : ℝ) - (size : ℝ) / 2 + 0.5) * spacing),
       ((x : ℝ) + (z : ℝ)) * 0.08,
       max 0.5 (2.5 - 1.5 *
          (Real.sqrt (((x : ℝ) - ((size : ℝ) / 2 - 0.5)) ^ 2 +
              ((z : ℝ) - ((size : ℝ) / 2 - 0.5)) ^ 2) /
            (Real.sqrt 2 * (size : ℝ) / 2)) + heightNoise x z),
       randomNoise x z⟩

/-- Source function `gaussianRandom(mean, stdev)` (App.tsx lines 8–13),
with the two `Math.random()` draws passed as the explicit arguments `r₁`
and `r₂`: `u = 1 - r₁`, `v = r₂`,
`z = sqrt(-2.0 * log u) * cos(2.0 * π * v)`, result `z * stdev + mean`. -/
noncomputable def gaussianRandom (mean stdev r₁ r₂ : ℝ) : ℝ :=
  let u := 1 - r₁
  let v := r₂
  let z := Real.sqrt (-2.0 * Real.log u) * Real.cos (2.0 * Real.pi * v)
  z * stdev + mean

/-- Output of `smoothstep` always lies in `[0, 1]`. -/
lemma smoothstep_mem (e0 e1 x : α) :
    0 ≤ smoothstep e0 e1 x ∧ smoothstep e0 e1 x ≤ 1 := by
  simp only [smoothstep, clamp]
  set t := min (max ((x - e0) / (e1 - e0)) 0) 1 with ht
  have h0 : 0 ≤ t := le_min (le_max_right _ 0) zero_le_one
  have h1 : t ≤ 1 := min_le_right _ 1
  constructor
  · nlinarith [mul_nonneg (mul_nonneg h0 h0) (by linarith : (0 : α) ≤ 3 - 2 * t)]
  · nlinarith [mul_nonneg (mul_self_nonneg (1 - t)) (by linarith : (0 : α) ≤ 1 + 2 * t)]

/-- Blending two values in `[lo, hi]` with a weight in `[0, 1]` stays in
`[lo, hi]`. -/
lemma mix_mem {a b s lo hi : α} (ha : lo ≤ a ∧ a ≤ hi) (hb : lo ≤ b ∧ b ≤ hi)
    (hs : 0 ≤ s ∧ s ≤ 1) : lo ≤ mix a b s ∧ mix a b s ≤ hi := by
  obtain ⟨ha1, ha2⟩ := ha
  obtain ⟨hb1, hb2⟩ := hb
  obtain ⟨hs1, hs2⟩ := hs
  simp only [mix]
  constructor
  · nlinarith [mul_nonneg (sub_nonneg.mpr ha1) (sub_nonneg.mpr hs2),
      mul_nonneg (sub_nonneg.mpr hb1) hs1]
  · nlinarith [mul_nonneg (sub_nonneg.mpr ha2) (sub_nonneg.mpr hs2),
      mul_nonneg (sub_nonneg.mpr hb2) hs1]

/-- Claim C1: for every phase value `t` in `[0,1)`, `customPalette t` lies in
the per-channel bounding box of the palette's anchor colors `c0 … c5`
(the code declares six anchor constants forming five smoothstep bands; the
channel minima/maxima across them are R ∈ [0.35, 1], G ∈ [0, 0.6],
B ∈ [0, 0.2]), hence inside the convex hull's bounding box. -/
theorem customPalette_in_anchor_box (t : ℚ) (h0 : 0 ≤ t) (h1 : t < 1) :
    (0.35 ≤ (customPalette t).1 ∧ (customPalette t).1 ≤ 1) ∧
    (0 ≤ (customPalette t).2.1 ∧ (customPalette t).2.1 ≤ 0.6) ∧
    (0 ≤ (customPalette t).2.2 ∧ (customPalette t).2.2 ≤ 0.2) := by
  have s0 := smoothstep_mem (α := ℚ) 0 0.2 t
  have s1 := smoothstep_mem (α := ℚ) 0.2 0.4 t
  have s2 := smoothstep_mem (α := ℚ) 0.4 0.6 t
  have s3 := smoothstep_mem (α := ℚ) 0.6 0.8 t
  have s4 := smoothstep_mem (α := ℚ) 0.8 1.0 t
  simp only [customPalette, mix3, c0, c1, c2, c3, c4, c5]
  refine ⟨?_, ?_, ?_⟩
  · exact mix_mem (mix_mem (mix_mem (mix_mem (mix_mem
      ⟨by norm_num, by norm_num⟩ ⟨by norm_num, by norm_num⟩ s0)
      ⟨by norm_num, by norm_num⟩ s1) ⟨by norm_num, by norm_num⟩ s2)
      ⟨by norm_num, by norm_num⟩ s3) ⟨by norm_num, by norm_num⟩ s4
  · exact mix_mem (mix_mem (mix_mem (mix_mem (mix_mem
      ⟨by norm_num, by norm_num⟩ ⟨by norm_num, by norm_num⟩ s0)
      ⟨by norm_num, by norm_num⟩ s1) ⟨by norm_num, by norm_num⟩ s2)
      ⟨by norm_num, by norm_num⟩ s3) ⟨by norm_num, by norm_num⟩ s4
  · exact mix_mem (mix_mem (mix_mem (mix_mem (mix_mem
      ⟨by norm_num, by norm_num⟩ ⟨by norm_num, by norm_num⟩ s0)
      ⟨by norm_num, by norm_num⟩ s1) ⟨by norm_num, by norm_num⟩ s2)
      ⟨by norm_num, by norm_num⟩ s3) ⟨by norm_num, by norm_num⟩ s4

/-- Witness for C1 at the concrete phase `t = 1/2`. -/
theorem customPalette_in_anchor_box_witness :
    (0 : ℚ) ≤ 1/2 ∧ (1/2 : ℚ) < 1 ∧
    ((0.35 ≤ (customPalette (1/2 : ℚ)).1 ∧ (customPalette (1/2 : ℚ)).1 ≤ 1) ∧
     (0 ≤ (customPalette (1/2 : ℚ)).2.1 ∧ (customPalette (1/2 : ℚ)).2.1 ≤ 0.6) ∧
     (0 ≤ (customPalette (1/2 : ℚ)).2.2 ∧ (customPalette (1/2 : ℚ)).2.2 ≤ 0.2)) :=
  ⟨by norm_num, by norm_num,
    customPalette_in_anchor_box (1/2) (by norm_num) (by norm_num)⟩

/-- Unfolding of `towerScaleY` with the literal `1.5` normalized to `3/2`. -/
lemma towerScaleY_eq (e d : ℚ) (v : Bool) :
    towerScaleY e d v =
      if e - d < 0 ∨ v = false then 0
      else if 3/2 < e - d then 1
      else 1 - (1 - min ((e - d) / (3/2)) 1) ^ 4 := by
  simp only [towerScaleY]
  norm_num

/-- Claim C2: during the Growing interval `delay ≤ e < delay + 1.5` (with
`visible = true`) the update writes `1 - (1 - clamp((e-delay)/1.5, 0, 1))^4`;
the written scale is monotone non-decreasing in elapsed time on that
interval, equals exactly `1` at `e = delay + 1.5`, and stays `1` for all
later elapsed times while `visible` stays true. -/
theorem towerScaleY_growing (d : ℚ) :
    (∀ e : ℚ, d ≤ e → e < d + 1.5 →
      towerScaleY e d true = 1 - (1 - clamp ((e - d) / 1.5) 0 1) ^ 4) ∧
    (∀ e₁ e₂ : ℚ, d ≤ e₁ → e₁ ≤ e₂ → e₂ < d + 1.5 →
      towerScaleY e₁ d true ≤ towerScaleY e₂ d true) ∧
    towerScaleY (d + 1.5) d true = 1 ∧
    (∀ e : ℚ, d + 1.5 ≤ e → towerScaleY e d true = 1) := by
  have h32 : (1.5 : ℚ) = 3/2 := by norm_num
  have formula : ∀ e : ℚ, d ≤ e → e < d + 1.5 →
      towerScaleY e d true = 1 - (1 - (e - d) / (3/2)) ^ 4 := by
    intro e he1 he2
    rw [h32] at he2
    have hge : (0 : ℚ) ≤ e - d := by linarith
    have hlt : e - d < 3/2 := by linarith
    rw [towerScaleY_eq]
    rw [if_neg, if_neg]
    · rw [min_eq_left (by linarith : (e - d) / (3/2) ≤ 1)]
    · exact not_lt.mpr (by linarith)
    · push_neg
      exact ⟨hge, by simp⟩
  refine ⟨?_, ?_, ?_, ?_⟩
  · intro e he1 he2
    rw [formula e he1 he2, h32]
    have hge : (0 : ℚ) ≤ e - d := by linarith
    rw [h32] at he2
    have : clamp ((e - d) / (3/2)) 0 1 = min ((e - d) / (3/2)) 1 := by
      simp only [clamp]
      rw [max_eq_left (by linarith : (0 : ℚ) ≤ (e - d) / (3/2))]
    rw [this, min_eq_left (by linarith : (e - d) / (3/2) ≤ 1)]
  · intro e₁ e₂ h1 h12 h2
    rw [h32] at h2
    rw [formula e₁ h1 (by rw [h32]; exact lt_of_le_of_lt h12 h2),
      formula e₂ (h1.trans h12) (by rw [h32]; exact h2)]
    have hp : (0 : ℚ) ≤ 1 - (e₂ - d) / (3/2) := by linarith
    have hq : 1 - (e₂ - d) / (3/2) ≤ 1 - (e₁ - d) / (3/2) := by linarith
    have := pow_le_pow_left₀ hp hq 4
    linarith
  · rw [towerScaleY_eq]
    norm_num
  · intro e he
    rw [h32] at he
    rcases eq_or_lt_of_le he with heq | hlt
    · rw [← heq, towerScaleY_eq]
      norm_num
    · rw [towerScaleY_eq]
      rw [if_neg, if_pos (by linarith)]
      push_neg
      exact ⟨by linarith, by simp⟩

/-- Witness for C2 at `delay = 0`: the formula at `e = 0.75`, monotonicity
between `e = 0.75` and `e = 1`, the exact value `1` at `e = 1.5`, and
persistence at `e = 10`. -/
theorem towerScaleY_growing_witness :
    towerScaleY 0.75 0 true = 1 - (1 - clamp ((0.75 - 0) / 1.5) 0 1) ^ 4 ∧
    towerScaleY 0.75 0 true ≤ towerScaleY 1 0 true ∧
    towerScaleY (0 + 1.5) 0 true = 1 ∧
    towerScaleY 10 0 true = 1 :=
  ⟨(towerScaleY_growing 0).1 0.75 (by norm_num) (by norm_num),
   (towerScaleY_growing 0).2.1 0.75 1 (by norm_num) (by norm_num) (by norm_num),
   (towerScaleY_growing 0).2.2.1,
   (towerScaleY_growing 0).2.2.2 10 (by norm_num)⟩

/-- Claim C3: a false `visible` flag forces `scale.y = 0` on every frame,
whatever the elapsed time and delay (Hidden has precedence over the
growth phases). -/
theorem towerScaleY_hidden (e d : ℚ) : towerScaleY e d false = 0 := by
  simp [towerScaleY]

/-- Claim C9: after every frame update the written scale lies in `[0, 1]`:
each branch writes `0`, `1`, or `1 - (1-p)^4` with `p ∈ [0, 1]`. -/
theorem towerScaleY_mem_unitInterval (e d : ℚ) (v : Bool) :
    0 ≤ towerScaleY e d v ∧ towerScaleY e d v ≤ 1 := by
  rw [towerScaleY_eq]
  split
  · norm_num
  · split
    · norm_num
    · rename_i hnot hle
      push_neg at hnot
      obtain ⟨hge, -⟩ := hnot
      set p := min ((e - d) / (3/2)) 1 with hp
      have hp0 : 0 ≤ p := le_min (div_nonneg hge (by norm_num)) zero_le_one
      have hp1 : p ≤ 1 := min_le_right _ 1
      have h1p0 : 0 ≤ 1 - p := by linarith
      have h1p1 : 1 - p ≤ 1 := by linarith
      constructor
      · have : (1 - p) ^ 4 ≤ 1 := pow_le_one₀ h1p0 h1p1
        linarith
      · have : 0 ≤ (1 - p) ^ 4 := pow_nonneg h1p0 4
        linarith

/-- Length of the cube stack, as a natural number. -/
lemma towerCubes_length (pos : V3 ℚ) (phase : ℕ → ℚ) (h : ℚ) :
    (towerCubes pos h phase).length = (numCubes h).toNat := by
  simp only [towerCubes, List.length_map, List.length_range]

/-- Claim C5: every tower creates exactly `⌊height * 8⌋` cubes (for the
nonnegative heights towers are built with); cube `i` sits `i * 0.5` units
above the tower base; and the heights `0.5`, `1`, `2.5` give `4`, `8`, `20`
cubes. -/
theorem towerCubes_spec :
    (∀ (pos : V3 ℚ) (phase : ℕ → ℚ) (h : ℚ), 0 ≤ h →
      (((towerCubes pos h phase).length : ℤ) = Int.floor (h * 8))) ∧
    (∀ (pos : V3 ℚ) (phase : ℕ → ℚ) (h : ℚ) (i : ℕ)
      (hi : i < (towerCubes pos h phase).length),
      ((towerCubes pos h phase).get ⟨i, hi⟩).position =
        (pos.1, pos.2.1 + (i : ℚ) * 0.5, pos.2.2)) ∧
    (towerCubes ((0, 0, 0) : V3 ℚ) (1/2) (fun _ => 0)).length = 4 ∧
    (towerCubes ((0, 0, 0) : V3 ℚ) 1 (fun _ => 0)).length = 8 ∧
    (towerCubes ((0, 0, 0) : V3 ℚ) (5/2) (fun _ => 0)).length = 20 := by
  refine ⟨?_, ?_, ?_, ?_, ?_⟩
  · intro pos phase h hh
    rw [towerCubes_length]
    simp only [numCubes]
    exact Int.toNat_of_nonneg (Int.floor_nonneg.mpr (by positivity))
  · intro pos phase h i hi
    simp only [towerCubes, List.get_eq_getElem, List.getElem_map,
      List.getElem_range]
  · rw [towerCubes_length]
    norm_num [numCubes]
    rfl
  · rw [towerCubes_length]
    norm_num [numCubes]
    rfl
  · rw [towerCubes_length]
    norm_num [numCubes]
    rfl

/-- Witness for C5 at height `5/2`: the count equation and the vertical
offset of cube `3`. -/
theorem towerCubes_spec_witness :
    (0 : ℚ) ≤ 5/2 ∧
    (((towerCubes ((0, 0, 0) : V3 ℚ) (5/2) (fun _ => 0)).length : ℤ) =
      Int.floor ((5/2 : ℚ) * 8)) ∧
    ((towerCubes ((0, 0, 0) : V3 ℚ) (5/2) (fun _ => 0)).get
      ⟨3, by rw [towerCubes_length]; norm_num [numCubes]⟩).position =
        ((0 : ℚ), (0 : ℚ) + (3 : ℚ) * 0.5, (0 : ℚ)) :=
  ⟨by norm_num,
   towerCubes_spec.1 _ _ _ (by norm_num),
   towerCubes_spec.2.1 _ _ _ 3 _⟩

/-- Any positive number of consecutive enter events ends in the hovered
state with a pointer cursor. -/
lemma runPointerEvents_replicate_over :
    ∀ (n : ℕ) (s : HoverState),
      runPointerEvents s (List.replicate (n + 1) PointerEvt.over) =
        ⟨true, "pointer"⟩ := by
  intro n
  induction n with
  | zero => intro s; rfl
  | succ m ih =>
    intro s
    have : List.replicate (m + 2) PointerEvt.over =
        PointerEvt.over :: List.replicate (m + 1) PointerEvt.over := rfl
    rw [runPointerEvents, this, List.foldl_cons]
    exact ih _

/-- Claim C7: hover handling is an idempotent set/clear: any `n ≥ 1`
enter events without an intervening exit leave `hovered = true` with the
`"pointer"` cursor, and a single exit event resets to `hovered = false`
with the default `"auto"` cursor. -/
theorem hover_idempotent_set_clear :
    (∀ (s : HoverState) (n : ℕ), 1 ≤ n →
      runPointerEvents s (List.replicate n PointerEvt.over) =
        ⟨true, "pointer"⟩) ∧
    (∀ s : HoverState,
      runPointerEvents s [PointerEvt.out] = ⟨false, "auto"⟩) := by
  constructor
  · intro s n hn
    cases n with
    | zero => omega
    | succ m => exact runPointerEvents_replicate_over m s
  · intro s
    rfl

/-- Witness for C7: three consecutive enters from the initial state, then
one exit. -/
theorem hover_idempotent_set_clear_witness :
    1 ≤ 3 ∧
    runPointerEvents ⟨false, "auto"⟩ (List.replicate 3 PointerEvt.over) =
      (⟨true, "pointer"⟩ : HoverState) ∧
    runPointerEvents ⟨true, "pointer"⟩ [PointerEvt.out] =
      (⟨false, "auto"⟩ : HoverState) :=
  ⟨by norm_num,
   hover_idempotent_set_clear.1 ⟨false, "auto"⟩ 3 (by norm_num),
   hover_idempotent_set_clear.2 ⟨true, "pointer"⟩⟩

/-- Claim C8: pressing `f` when not fullscreen enters fullscreen, pressing
it again exits, `"F"` behaves like `"f"`, and after any press of the key
the tracked `isFullscreen` equals the platform fullscreen state. -/
theorem fullscreen_toggle_spec :
    (∀ s : AppState, s.fullscreenElement = false →
      (handleKeyPress "f" s).fullscreenElement = true ∧
      (handleKeyPress "f" (handleKeyPress "f" s)).fullscreenElement = false) ∧
    (∀ s : AppState, handleKeyPress "F" s = handleKeyPress "f" s) ∧
    (∀ s : AppState,
      (handleKeyPress "f" s).isFullscreen =
        (handleKeyPress "f" s).fullscreenElement) := by
  refine ⟨?_, ?_, ?_⟩
  · intro s hs
    simp [handleKeyPress, toggleFullscreen, hs]
  · intro s
    simp [handleKeyPress]
  · intro s
    by_cases h : s.fullscreenElement = false <;>
      simp [handleKeyPress, toggleFullscreen, h]

/-- Witness for C8 from the initial (non-fullscreen) state. -/
theorem fullscreen_toggle_spec_witness :
    (AppState.mk false false).fullscreenElement = false ∧
    (handleKeyPress "f" ⟨false, false⟩).fullscreenElement = true ∧
    (handleKeyPress "f" (handleKeyPress "f" ⟨false, false⟩)).fullscreenElement
      = false ∧
    (handleKeyPress "f" ⟨false, false⟩).isFullscreen =
      (handleKeyPress "f" ⟨false, false⟩).fullscreenElement :=
  ⟨rfl,
   (fullscreen_toggle_spec.1 ⟨false, false⟩ rfl).1,
   (fullscreen_toggle_spec.1 ⟨false, false⟩ rfl).2,
   fullscreen_toggle_spec.2.2 ⟨false, false⟩⟩

/-- Claim C4: the grid composer emits exactly `size² = 144` tower
descriptors, and every descriptor's height is at least `0.5`, whatever the
Gaussian noise samples are. -/
theorem towers_count_and_min_height (heightNoise randomNoise : ℕ → ℕ → ℝ) :
    (towers heightNoise randomNoise).length = size * size ∧
    (towers heightNoise randomNoise).length = 144 ∧
    (towers heightNoise randomNoise).Forall (fun td => 0.5 ≤ td.height) := by
  have hlen : (towers heightNoise randomNoise).length = 144 := by
    rw [towers, List.length_flatMap]
    rfl
  refine ⟨by rw [hlen]; rfl, hlen, ?_⟩
  rw [List.forall_iff_forall_mem]
  intro td htd
  rw [towers] at htd
  simp only [List.mem_flatMap, List.mem_map] at htd
  obtain ⟨x, -, z, -, rfl⟩ := htd
  exact le_max_left _ _

/-- Claim C10: for uniform draws `r₁, r₂ ∈ [0, 1)` the quantity
`u = 1 - r₁` lies in `(0, 1]`, so `log u` is a well-defined non-positive
real, the square-root argument `-2 * log u` is non-negative, and the
result is a real number within the finite distance
`sqrt(-2 log u) * |stdev|` of the mean — the real-arithmetic content of
"`gaussianRandom` never returns NaN or ±∞". -/
theorem gaussianRandom_welldefined (mean stdev r₁ r₂ : ℝ)
    (h0 : 0 ≤ r₁) (h1 : r₁ < 1) :
    0 < 1 - r₁ ∧ 1 - r₁ ≤ 1 ∧ Real.log (1 - r₁) ≤ 0 ∧
    0 ≤ -2 * Real.log (1 - r₁) ∧
    |gaussianRandom mean stdev r₁ r₂ - mean| ≤
      Real.sqrt (-2 * Real.log (1 - r₁)) * |stdev| := by
  have hu0 : 0 < 1 - r₁ := by linarith
  have hu1 : 1 - r₁ ≤ 1 := by linarith
  have hlog : Real.log (1 - r₁) ≤ 0 := Real.log_nonpos (by linarith) hu1
  refine ⟨hu0, hu1, hlog, by linarith, ?_⟩
  have heq : gaussianRandom mean stdev r₁ r₂ - mean =
      Real.sqrt (-2 * Real.log (1 - r₁)) *
        Real.cos (2 * Real.pi * r₂) * stdev := by
    simp only [gaussianRandom]
    norm_num
  rw [heq, abs_mul, abs_mul, abs_of_nonneg (Real.sqrt_nonneg _)]
  have hcos : |Real.cos (2 * Real.pi * r₂)| ≤ 1 := Real.abs_cos_le_one _
  have hstep : Real.sqrt (-2 * Real.log (1 - r₁)) *
      |Real.cos (2 * Real.pi * r₂)| ≤
      Real.sqrt (-2 * Real.log (1 - r₁)) := by
    have := mul_le_mul_of_nonneg_left hcos (Real.sqrt_nonneg
      (-2 * Real.log (1 - r₁)))
    simpa using this
  exact mul_le_mul_of_nonneg_right hstep (abs_nonneg _)

/-- Witness for C10 at `mean = 0`, `stdev = 1`, `r₁ = 1/2`, `r₂ = 0`. -/
theorem gaussianRandom_welldefined_witness :
    (0 : ℝ) ≤ 1/2 ∧ (1/2 : ℝ) < 1 ∧
    (0 < 1 - (1/2 : ℝ) ∧ 1 - (1/2 : ℝ) ≤ 1 ∧
     Real.log (1 - (1/2 : ℝ)) ≤ 0 ∧
     0 ≤ -2 * Real.log (1 - (1/2 : ℝ)) ∧
     |gaussianRandom 0 1 (1/2) 0 - 0| ≤
       Real.sqrt (-2 * Real.log (1 - (1/2 : ℝ))) * |(1 : ℝ)|) :=
  ⟨by norm_num, by norm_num,
   gaussianRandom_welldefined 0 1 (1/2) 0 (by norm_num) (by norm_num)⟩

/-- Claim C6: the fragment computation is deterministic: it is a pure
function of its inputs, so evaluating it twice on identical inputs yields
identical output colors — no hidden state is read or written. -/
theorem fragmentMain_deterministic (u v : FragIn) (h : u = v) :
    fragmentMain u = fragmentMain v := by
  rw [h]

/-- Witness for C6 at a concrete input (unit normal along z, camera at z=1,
all scalars zero), evaluated twice. -/
theorem fragmentMain_deterministic_witness :
    FragIn.mk (0, 0, 1) (0, 0, 0) (0, 0, 1) (0, 0, 0) 0 0 0 0 =
      FragIn.mk (0, 0, 1) (0, 0, 0) (0, 0, 1) (0, 0, 0) 0 0 0 0 ∧
    fragmentMain (FragIn.mk (0, 0, 1) (0, 0, 0) (0, 0, 1) (0, 0, 0) 0 0 0 0) =
      fragmentMain (FragIn.mk (0, 0, 1) (0, 0, 0) (0, 0, 1) (0, 0, 0) 0 0 0 0) :=
  ⟨rfl, fragmentMain_deterministic _ _ rfl⟩

end PS2
